import Mathlib

/-!
# Result reduction and static-route set-up of the D2D sidelink and IAB multi-hop scenarios

A shallow embedding of the two scenario programs `d2d-sidelink.cc` and
`iab-multihop.cc`.  Each `main` is a function of its command-line values, of the
interface addresses handed out by the address helper, and of what the simulator
leaves behind when it stops (the flow-statistics map and the flow classifier).
Floating-point arithmetic is read over exact rationals; `uint32_t` arithmetic is
arithmetic on `Nat` reduced modulo `2 ^ 32`.
-/

namespace Ns3

/-- Modulus of `uint32_t` arithmetic. -/
def u32 : Nat := 4294967296

/-- Subtraction of two `uint32_t` values, wrapping modulo `2 ^ 32`. -/
def subU32 (a b : Nat) : Nat := (a % u32 + u32 - b % u32) % u32

/-- Addition of two `uint32_t` values, wrapping modulo `2 ^ 32`. -/
def addU32 (a b : Nat) : Nat := (a + b) % u32

/-- Simulation time: a signed count of nanosecond ticks. -/
structure Time where
  ticks : Int
  deriving DecidableEq, Repr

/-- The value of a time in seconds. -/
def Time.GetSeconds (t : Time) : ℚ := (t.ticks : ℚ) / 1000000000

abbrev Ipv4Address := Nat

abbrev FlowId := Nat

/-- A position in space, `Vector (x, y, z)`. -/
structure Vector where
  x : ℚ
  y : ℚ
  z : ℚ
  deriving DecidableEq, Repr

/-- The five-tuple the classifier keeps for a flow. -/
structure FiveTuple where
  sourceAddress : Ipv4Address
  destinationAddress : Ipv4Address
  protocol : Nat
  sourcePort : Nat
  destinationPort : Nat
  deriving DecidableEq, Repr

/-- The fields of `FlowMonitor::FlowStats` read by the two programs. -/
structure FlowStats where
  timeFirstTxPacket : Time
  timeLastRxPacket : Time
  delaySum : Time
  rxBytes : Nat
  txPackets : Nat
  rxPackets : Nat
  deriving DecidableEq, Repr

/-- The packet counters fit `uint32_t`, the byte counter fits `uint64_t`. -/
def FlowStats.inRange (fs : FlowStats) : Prop :=
  fs.txPackets < u32 ∧ fs.rxPackets < u32 ∧ fs.rxBytes < 18446744073709551616

instance (fs : FlowStats) : Decidable fs.inRange := by
  unfold FlowStats.inRange; infer_instance

/-- One host route added by `AddHostRouteTo (dest, nextHop, interface)` to the
static routing table of node `node`. -/
structure RouteEntry where
  node : Nat
  dest : Ipv4Address
  nextHop : Ipv4Address
  interface : Nat
  deriving DecidableEq, Repr

/-- The three figures computed for a matching flow. -/
structure Metrics where
  throughputMbps : ℚ
  avgDelayMs : ℚ
  plr : ℚ
  deriving DecidableEq, Repr

/-- The flow-statistics map, as the list of its entries in increasing key order
(the order in which a range-for visits a `std::map`). -/
abbrev StatsMap := List (FlowId × FlowStats)

/-- Keys of the map are strictly increasing along the iteration order. -/
def StatsMap.ordered (stats : StatsMap) : Prop :=
  stats.Pairwise (fun a b => a.1 < b.1)

/-- Outcome of one pass through a loop body: go on with the next element, or
leave the enclosing function with an exit code. -/
inductive Step (σ : Type) where
  | next (s : σ)
  | ret (s : σ) (code : Int)

/-- A range-for over a list whose body may return from the enclosing function. -/
def forEach {α σ : Type} (body : σ → α → Step σ) : List α → σ → Step σ
  | [], s => Step.next s
  | x :: xs, s =>
    match body s x with
    | Step.next s1 => forEach body xs s1
    | Step.ret s1 code => Step.ret s1 code

end Ns3

open Ns3

/-! ## d2d-sidelink.cc -/

namespace D2d

/-- Lines written to standard output by the sidelink program. -/
inductive Line where
  | running (mode : String)
  | resultsHeader (mode : String)
  | throughput (v : ℚ)
  | avgDelay (v : ℚ)
  | packetLoss (v : ℚ)
  | csv (mode : String) (intervalUs throughputMbps avgDelayMs plr : ℚ)
  deriving DecidableEq

/-- What a run leaves behind. -/
structure Run where
  stdout : List Line
  positions : List Vector
  routes : List RouteEntry
  destroyed : Bool
  exitCode : Int

/-- Positions handed to the position allocator. -/
def positions (mode : String) : List Vector :=
  if mode = "direct" then
    [⟨0, 0, 0⟩, ⟨25, 0, 0⟩, ⟨50, 0, 0⟩]
  else
    [⟨0, 0, 0⟩, ⟨40, 0, 0⟩, ⟨80, 0, 0⟩]

/-- Static routing: only for relay mode. -/
def staticRoutes (mode : String) (relayAddr ue2Addr : Ipv4Address) : List RouteEntry :=
  if mode = "relay" then
    [⟨0, ue2Addr, relayAddr, 1⟩, ⟨1, ue2Addr, ue2Addr, 1⟩]
  else
    []

/-- The three figures computed inside the address test of the result loop. -/
def flowMetrics (fs : FlowStats) : Metrics :=
  let txPkts := fs.txPackets % u32
  let rxPkts := fs.rxPackets % u32
  let inner : ℚ × ℚ :=
    if 0 < rxPkts ∧ fs.timeFirstTxPacket.ticks < fs.timeLastRxPacket.ticks then
      let duration := fs.timeLastRxPacket.GetSeconds - fs.timeFirstTxPacket.GetSeconds
      (((fs.rxBytes : ℚ) * 8) / (duration * 1000000),
       (fs.delaySum.GetSeconds / (rxPkts : ℚ)) * 1000)
    else
      (0, 0)
  let plr : ℚ :=
    if 0 < txPkts then
      ((subU32 txPkts rxPkts : Nat) : ℚ) * 100 / (txPkts : ℚ)
    else
      0
  ⟨inner.1, inner.2, plr⟩

/-- The lines printed for a matching flow. -/
def report (mode : String) (intervalUs : ℚ) (m : Metrics) : List Line :=
  [Line.resultsHeader mode,
   Line.throughput m.throughputMbps,
   Line.avgDelay m.avgDelayMs,
   Line.packetLoss m.plr,
   Line.csv mode intervalUs m.throughputMbps m.avgDelayMs m.plr]

/-- Body of the result loop: the address test with its report, then
`Simulator::Destroy (); return 0;`. -/
def loopBody (mode : String) (intervalUs : ℚ) (classifier : FlowId → FiveTuple)
    (ue1Addr ue2Addr : Ipv4Address) (r : Run) (flow : FlowId × FlowStats) : Step Run :=
  let t := classifier flow.1
  let r1 : Run :=
    if t.sourceAddress = ue1Addr ∧ t.destinationAddress = ue2Addr then
      { r with stdout := r.stdout ++ report mode intervalUs (flowMetrics flow.2) }
    else
      r
  Step.ret { r1 with destroyed := true } 0

/-- The sidelink program: set-up, then the result loop over what the simulator
left behind. -/
def main (mode : String) (intervalUs : ℚ) (ifaces : Nat → Ipv4Address)
    (stats : StatsMap) (classifier : FlowId → FiveTuple) : Run :=
  let ue1Addr := ifaces 0
  let relayAddr := ifaces 1
  let ue2Addr := ifaces 2
  let r0 : Run :=
    { stdout := [Line.running mode]
      positions := positions mode
      routes := staticRoutes mode relayAddr ue2Addr
      destroyed := false
      exitCode := 0 }
  match forEach (loopBody mode intervalUs classifier ue1Addr ue2Addr) stats r0 with
  | Step.ret r code => { r with exitCode := code }
  | Step.next r => { r with exitCode := 0 }

/-- The machine-readable lines of an output. -/
def csvLines (out : List Line) : List Line :=
  out.filter (fun l => match l with
    | Line.csv _ _ _ _ _ => true
    | _ => false)

end D2d

/-! ## iab-multihop.cc -/

namespace Iab

/-- Lines written to standard output by the multi-hop program. -/
inductive Line where
  | invalidHops (hops : Nat)
  | running (hops : Nat)
  | resultsHeader
  | hops (hops : Nat)
  | throughput (v : ℚ)
  | avgDelay (v : ℚ)
  | packetLoss (v : ℚ)
  | csv (hops : Nat) (throughputMbps avgDelayMs plr : ℚ)
  deriving DecidableEq

/-- What a run leaves behind. -/
structure Run where
  stdout : List Line
  hops : Nat
  totalNodes : Nat
  positions : List Vector
  routes : List RouteEntry
  destroyed : Bool
  exitCode : Int

/-- The range check on `hops`: the value used from here on, and what is printed. -/
def checkHops (hops : Nat) : Nat × List Line :=
  if hops < 1 ∨ hops > 3 then
    (1, [Line.invalidHops hops])
  else
    (hops, [])

/-- The position loop `for (i = 0; i < totalNodes; ++i)`. -/
def placeLoop (totalNodes : Nat) (i : Nat) (acc : List Vector) : List Vector :=
  if i < totalNodes then
    placeLoop totalNodes (i + 1) (acc ++ [⟨50 * (i : ℚ), 0, 0⟩])
  else
    acc
termination_by totalNodes - i

/-- The static-routing loop `for (i = 0; i < hops; ++i)`: node `i` gets a host
route to `dstAddr` through the address of node `i + 1`, on interface 1. -/
def routeLoop (ifaces : Nat → Ipv4Address) (hops : Nat) (dstAddr : Ipv4Address)
    (i : Nat) (tbl : List RouteEntry) : List RouteEntry :=
  if i < hops then
    routeLoop ifaces hops dstAddr (i + 1) (tbl ++ [⟨i, dstAddr, ifaces (i + 1), 1⟩])
  else
    tbl
termination_by hops - i

/-- The three figures computed inside the address test of the result loop. -/
def flowMetrics (fs : FlowStats) : Metrics :=
  let txPkts := fs.txPackets % u32
  let rxPkts := fs.rxPackets % u32
  let rxBytes := fs.rxBytes % 18446744073709551616
  let inner : ℚ × ℚ :=
    if 0 < rxPkts ∧ fs.timeFirstTxPacket.ticks < fs.timeLastRxPacket.ticks then
      let duration := fs.timeLastRxPacket.GetSeconds - fs.timeFirstTxPacket.GetSeconds
      (((rxBytes : ℚ) * 8) / (duration * 1000000),
       (fs.delaySum.GetSeconds / (rxPkts : ℚ)) * 1000)
    else
      (0, 0)
  let plr : ℚ :=
    if 0 < txPkts then
      ((subU32 txPkts rxPkts : Nat) : ℚ) * 100 / (txPkts : ℚ)
    else
      0
  ⟨inner.1, inner.2, plr⟩

/-- The lines printed for a matching flow. -/
def report (hops : Nat) (m : Metrics) : List Line :=
  [Line.resultsHeader,
   Line.hops hops,
   Line.throughput m.throughputMbps,
   Line.avgDelay m.avgDelayMs,
   Line.packetLoss m.plr,
   Line.csv hops m.throughputMbps m.avgDelayMs m.plr]

/-- Body of the result loop: the address test with its report, then
`Simulator::Destroy (); return 0;`. -/
def loopBody (hops : Nat) (classifier : FlowId → FiveTuple)
    (srcAddr dstAddr : Ipv4Address) (r : Run) (flow : FlowId × FlowStats) : Step Run :=
  let t := classifier flow.1
  let r1 : Run :=
    if t.sourceAddress = srcAddr ∧ t.destinationAddress = dstAddr then
      { r with stdout := r.stdout ++ report hops (flowMetrics flow.2) }
    else
      r
  Step.ret { r1 with destroyed := true } 0

/-- The multi-hop program: range check, set-up, then the result loop over what
the simulator left behind. -/
def main (hopsArg : Nat) (ifaces : Nat → Ipv4Address)
    (stats : StatsMap) (classifier : FlowId → FiveTuple) : Run :=
  let checked := checkHops hopsArg
  let hops := checked.1
  let totalNodes := addU32 hops 1
  let srcAddr := ifaces 0
  let dstAddr := ifaces hops
  let r0 : Run :=
    { stdout := checked.2 ++ [Line.running hops]
      hops := hops
      totalNodes := totalNodes
      positions := placeLoop totalNodes 0 []
      routes := routeLoop ifaces hops dstAddr 0 []
      destroyed := false
      exitCode := 0 }
  match forEach (loopBody hops classifier srcAddr dstAddr) stats r0 with
  | Step.ret r code => { r with exitCode := code }
  | Step.next r => { r with exitCode := 0 }

/-- The machine-readable lines of an output. -/
def csvLines (out : List Line) : List Line :=
  out.filter (fun l => match l with
    | Line.csv _ _ _ _ => true
    | _ => false)

/-- The out-of-range warnings of an output. -/
def warnings (out : List Line) : List Line :=
  out.filter (fun l => match l with
    | Line.invalidHops _ => true
    | _ => false)

/-- Next hop kept for `dest` in the table of `node`, if any. -/
def nextHop (tbl : List RouteEntry) (node : Nat) (dest : Ipv4Address) : Option Ipv4Address :=
  (tbl.find? (fun e => e.node = node ∧ e.dest = dest)).map (fun e => e.nextHop)

/-- The node among `0 .. totalNodes - 1` that owns address `a`, if any. -/
def ownerOf (ifaces : Nat → Ipv4Address) (totalNodes : Nat) (a : Ipv4Address) : Option Nat :=
  (List.range totalNodes).find? (fun j => ifaces j = a)

/-- The node reached from node 0 after `k` forwarding steps towards `dest`. -/
def walk (ifaces : Nat → Ipv4Address) (totalNodes : Nat) (tbl : List RouteEntry)
    (dest : Ipv4Address) : Nat → Option Nat
  | 0 => some 0
  | k + 1 =>
    match walk ifaces totalNodes tbl dest k with
    | none => none
    | some n =>
      match nextHop tbl n dest with
      | none => none
      | some a => ownerOf ifaces totalNodes a

end Iab

/-! ## Sample inputs -/

namespace Sample

/-- A flow that delivered 3 of 4 packets between 4 s and 5 s. -/
def flowDelivered : FlowStats :=
  { timeFirstTxPacket := ⟨4000000000⟩
    timeLastRxPacket := ⟨5000000000⟩
    delaySum := ⟨6000000⟩
    rxBytes := 4200
    txPackets := 4
    rxPackets := 3 }

/-- A record with one received packet whose last reception time equals its first
transmission time. -/
def flowSameInstant : FlowStats :=
  { timeFirstTxPacket := ⟨4000000000⟩
    timeLastRxPacket := ⟨4000000000⟩
    delaySum := ⟨1000000⟩
    rxBytes := 1400
    txPackets := 1
    rxPackets := 1 }

/-- A record with two received packets whose last reception time lies before its
first transmission time. -/
def flowReversed : FlowStats :=
  { timeFirstTxPacket := ⟨5000000000⟩
    timeLastRxPacket := ⟨4000000000⟩
    delaySum := ⟨2000000⟩
    rxBytes := 2800
    txPackets := 2
    rxPackets := 2 }

/-- A record whose receive counter exceeds its transmit counter. -/
def flowOverReceived : FlowStats :=
  { timeFirstTxPacket := ⟨1000000000⟩
    timeLastRxPacket := ⟨2000000000⟩
    delaySum := ⟨3000000⟩
    rxBytes := 3600
    txPackets := 2
    rxPackets := 3 }

/-- A record with one received packet of no bytes and no delay, received after
its transmission. -/
def flowNoPayload : FlowStats :=
  { timeFirstTxPacket := ⟨1000000000⟩
    timeLastRxPacket := ⟨2000000000⟩
    delaySum := ⟨0⟩
    rxBytes := 0
    txPackets := 1
    rxPackets := 1 }

/-- A flow that lost all 4 of its packets. -/
def flowAllLost : FlowStats :=
  { timeFirstTxPacket := ⟨4000000000⟩
    timeLastRxPacket := ⟨0⟩
    delaySum := ⟨0⟩
    rxBytes := 0
    txPackets := 4
    rxPackets := 0 }

/-- The addresses 10.1.0.1, 10.1.0.2, ... in host byte order. -/
def chainAddr (i : Nat) : Ipv4Address := 167837697 + i

/-- A classifier under which only flow 2 runs from `chainAddr 0` to `chainAddr 2`. -/
def laterMatch (id : FlowId) : FiveTuple :=
  if id = 2 then ⟨chainAddr 0, chainAddr 2, 17, 49153, 5000⟩
  else ⟨chainAddr 2, chainAddr 0, 17, 5000, 49153⟩

/-- A classifier under which every flow runs from `chainAddr 0` to `chainAddr 2`. -/
def allMatch (_ : FlowId) : FiveTuple :=
  ⟨chainAddr 0, chainAddr 2, 17, 49153, 5000⟩

/-- A statistics map with two flows, ids 1 and 2. -/
def twoFlows : StatsMap := [(1, flowDelivered), (2, flowOverReceived)]

end Sample

/-! ## Auxiliary facts -/

namespace Ns3

/-- Comparing two times in seconds is comparing their tick counts. -/
theorem Time.GetSeconds_le_iff (a b : Time) :
    a.GetSeconds ≤ b.GetSeconds ↔ a.ticks ≤ b.ticks := by
  unfold Time.GetSeconds
  rw [div_le_div_iff_of_pos_right (by norm_num)]
  exact Int.cast_le

/-- No wrap when the subtrahend is not larger. -/
theorem subU32_of_le {a b : Nat} (ha : a < u32) (hab : b ≤ a) : subU32 a b = a - b := by
  unfold subU32 u32 at *
  omega

/-- One wrap when the subtrahend is larger. -/
theorem subU32_of_lt {a b : Nat} (hb : b < u32) (hab : a < b) :
    subU32 a b = a + u32 - b := by
  unfold subU32 u32 at *
  omega

end Ns3

/-- Closed form of the throughput figure of the sidelink program. -/
theorem D2d.throughput_eq (fs : FlowStats) :
    (D2d.flowMetrics fs).throughputMbps =
      if 0 < fs.rxPackets % u32 ∧ fs.timeFirstTxPacket.ticks < fs.timeLastRxPacket.ticks then
        ((fs.rxBytes : ℚ) * 8) /
          ((fs.timeLastRxPacket.GetSeconds - fs.timeFirstTxPacket.GetSeconds) * 1000000)
      else 0 := by
  unfold D2d.flowMetrics
  dsimp only
  split <;> rfl

/-- Closed form of the delay figure of the sidelink program. -/
theorem D2d.avgDelay_eq (fs : FlowStats) :
    (D2d.flowMetrics fs).avgDelayMs =
      if 0 < fs.rxPackets % u32 ∧ fs.timeFirstTxPacket.ticks < fs.timeLastRxPacket.ticks then
        (fs.delaySum.GetSeconds / ((fs.rxPackets % u32 : Nat) : ℚ)) * 1000
      else 0 := by
  unfold D2d.flowMetrics
  dsimp only
  split <;> rfl

/-- Closed form of the loss figure of the sidelink program. -/
theorem D2d.plr_eq (fs : FlowStats) :
    (D2d.flowMetrics fs).plr =
      if 0 < fs.txPackets % u32 then
        ((subU32 (fs.txPackets % u32) (fs.rxPackets % u32) : Nat) : ℚ) * 100 /
          ((fs.txPackets % u32 : Nat) : ℚ)
      else 0 := by
  unfold D2d.flowMetrics
  rfl

/-- Within the counter ranges both programs compute the same three figures. -/
theorem Iab.flowMetrics_eq_d2d (fs : FlowStats) (hr : fs.inRange) :
    Iab.flowMetrics fs = D2d.flowMetrics fs := by
  obtain ⟨_, _, hb⟩ := hr
  unfold Iab.flowMetrics D2d.flowMetrics
  rw [Nat.mod_eq_of_lt hb]

/-- Both programs compute the same average-delay figure. -/
theorem Iab.avgDelay_eq_d2d (fs : FlowStats) :
    (Iab.flowMetrics fs).avgDelayMs = (D2d.flowMetrics fs).avgDelayMs := by
  unfold Iab.flowMetrics D2d.flowMetrics
  dsimp only
  split <;> rfl

/-- Both programs compute the same loss figure. -/
theorem Iab.plr_eq_d2d (fs : FlowStats) :
    (Iab.flowMetrics fs).plr = (D2d.flowMetrics fs).plr := rfl

/-! ## Closed forms of the three figures -/

/-- The guard of the inner block, read on seconds. -/
theorem Ns3.guard_iff (fs : FlowStats) :
    (0 < fs.rxPackets ∧ fs.timeFirstTxPacket.ticks < fs.timeLastRxPacket.ticks) ↔
      ¬ (fs.rxPackets = 0 ∨
          fs.timeLastRxPacket.GetSeconds ≤ fs.timeFirstTxPacket.GetSeconds) := by
  rw [Time.GetSeconds_le_iff]
  omega

/-- Throughput of the sidelink program for a receive counter in range. -/
theorem D2d.throughput_guarded (fs : FlowStats) (hrx : fs.rxPackets < u32) :
    (D2d.flowMetrics fs).throughputMbps =
      (if fs.rxPackets = 0 ∨
          fs.timeLastRxPacket.GetSeconds ≤ fs.timeFirstTxPacket.GetSeconds then 0
       else (fs.rxBytes : ℚ) * 8 /
          ((fs.timeLastRxPacket.GetSeconds - fs.timeFirstTxPacket.GetSeconds) * 1000000)) := by
  rw [D2d.throughput_eq, Nat.mod_eq_of_lt hrx]
  by_cases h : 0 < fs.rxPackets ∧ fs.timeFirstTxPacket.ticks < fs.timeLastRxPacket.ticks
  · rw [if_pos h, if_neg ((Ns3.guard_iff fs).1 h)]
  · rw [if_neg h, if_pos (not_not.1 (fun hn => h ((Ns3.guard_iff fs).2 hn)))]

/-- Average delay of the sidelink program for a receive counter in range. -/
theorem D2d.avgDelay_guarded (fs : FlowStats) (hrx : fs.rxPackets < u32) :
    (D2d.flowMetrics fs).avgDelayMs =
      (if fs.rxPackets = 0 ∨
          fs.timeLastRxPacket.GetSeconds ≤ fs.timeFirstTxPacket.GetSeconds then 0
       else (fs.delaySum.GetSeconds / (fs.rxPackets : ℚ)) * 1000) := by
  rw [D2d.avgDelay_eq, Nat.mod_eq_of_lt hrx]
  by_cases h : 0 < fs.rxPackets ∧ fs.timeFirstTxPacket.ticks < fs.timeLastRxPacket.ticks
  · rw [if_pos h, if_neg ((Ns3.guard_iff fs).1 h)]
  · rw [if_neg h, if_pos (not_not.1 (fun hn => h ((Ns3.guard_iff fs).2 hn)))]

/-- Loss of the sidelink program when no more packets were received than sent. -/
theorem D2d.plr_of_le (fs : FlowStats) (htx : fs.txPackets < u32)
    (hle : fs.rxPackets ≤ fs.txPackets) :
    (D2d.flowMetrics fs).plr =
      (if fs.txPackets = 0 then 0
       else ((fs.txPackets : ℚ) - (fs.rxPackets : ℚ)) * 100 / (fs.txPackets : ℚ)) := by
  have hrx : fs.rxPackets < u32 := lt_of_le_of_lt hle htx
  rw [D2d.plr_eq, Nat.mod_eq_of_lt hrx, Nat.mod_eq_of_lt htx, subU32_of_le htx hle]
  by_cases h0 : fs.txPackets = 0
  · simp [h0]
  · rw [if_pos (Nat.pos_of_ne_zero h0), if_neg h0, Nat.cast_sub hle]

/-- Loss of the sidelink program when more packets were received than sent. -/
theorem D2d.plr_of_lt (fs : FlowStats) (hrx : fs.rxPackets < u32)
    (htx0 : 0 < fs.txPackets) (hlt : fs.txPackets < fs.rxPackets) :
    (D2d.flowMetrics fs).plr =
      ((fs.txPackets : ℚ) + 4294967296 - (fs.rxPackets : ℚ)) * 100 / (fs.txPackets : ℚ) := by
  have htx : fs.txPackets < u32 := lt_trans hlt hrx
  rw [D2d.plr_eq, Nat.mod_eq_of_lt hrx, Nat.mod_eq_of_lt htx, subU32_of_lt hrx hlt,
    if_pos htx0]
  have hle : fs.rxPackets ≤ fs.txPackets + u32 := by omega
  rw [Nat.cast_sub hle]
  simp [u32]

/-! ## Throughput, delay and loss figures -/

/-- C1: in both programs, for every flow record within the counter ranges, the
throughput figure is 0 if `rxPackets` is 0 or the last reception is not later
than the first transmission, and otherwise `rxBytes * 8` divided by the
duration in seconds times `1e6`. -/
theorem throughput_formula (fs : FlowStats) (hr : fs.inRange) :
    (D2d.flowMetrics fs).throughputMbps =
        (if fs.rxPackets = 0 ∨
            fs.timeLastRxPacket.GetSeconds ≤ fs.timeFirstTxPacket.GetSeconds then 0
         else (fs.rxBytes : ℚ) * 8 /
            ((fs.timeLastRxPacket.GetSeconds - fs.timeFirstTxPacket.GetSeconds) * 1000000)) ∧
    (Iab.flowMetrics fs).throughputMbps =
        (if fs.rxPackets = 0 ∨
            fs.timeLastRxPacket.GetSeconds ≤ fs.timeFirstTxPacket.GetSeconds then 0
         else (fs.rxBytes : ℚ) * 8 /
            ((fs.timeLastRxPacket.GetSeconds - fs.timeFirstTxPacket.GetSeconds) * 1000000)) := by
  rw [Iab.flowMetrics_eq_d2d fs hr, and_self]
  exact D2d.throughput_guarded fs hr.2.1

/-- The throughput formula at a flow that delivered 4200 bytes in one second. -/
theorem throughput_formula_witness :
    Sample.flowDelivered.inRange ∧
    (D2d.flowMetrics Sample.flowDelivered).throughputMbps = 21 / 625 ∧
    (Iab.flowMetrics Sample.flowDelivered).throughputMbps = 21 / 625 := by
  have h := throughput_formula Sample.flowDelivered (by decide)
  refine ⟨by decide, ?_, ?_⟩
  · rw [h.1]; norm_num [Sample.flowDelivered, Time.GetSeconds]
  · rw [h.2]; norm_num [Sample.flowDelivered, Time.GetSeconds]

/-- C2 as stated fails: a record with one received packet and a positive delay
sum, whose last reception time equals its first transmission time, is given
average delay 0 by both programs instead of `(delaySum / rxPackets) * 1000`. -/
theorem avgDelay_unguarded_counterexample :
    Sample.flowSameInstant.inRange ∧
    Sample.flowSameInstant.rxPackets ≠ 0 ∧
    (Sample.flowSameInstant.delaySum.GetSeconds /
        (Sample.flowSameInstant.rxPackets : ℚ)) * 1000 = 1 ∧
    (D2d.flowMetrics Sample.flowSameInstant).avgDelayMs = 0 ∧
    (Iab.flowMetrics Sample.flowSameInstant).avgDelayMs = 0 ∧
    (D2d.flowMetrics Sample.flowSameInstant).avgDelayMs ≠
      (Sample.flowSameInstant.delaySum.GetSeconds /
        (Sample.flowSameInstant.rxPackets : ℚ)) * 1000 ∧
    (Iab.flowMetrics Sample.flowSameInstant).avgDelayMs ≠
      (Sample.flowSameInstant.delaySum.GetSeconds /
        (Sample.flowSameInstant.rxPackets : ℚ)) * 1000 := by
  have hd : (D2d.flowMetrics Sample.flowSameInstant).avgDelayMs = 0 := by
    rw [D2d.avgDelay_eq]
    simp [Sample.flowSameInstant]
  have hi : (Iab.flowMetrics Sample.flowSameInstant).avgDelayMs = 0 := by
    rw [Iab.flowMetrics_eq_d2d _ (by decide)]
    exact hd
  have hv : (Sample.flowSameInstant.delaySum.GetSeconds /
      (Sample.flowSameInstant.rxPackets : ℚ)) * 1000 = 1 := by
    norm_num [Sample.flowSameInstant, Time.GetSeconds]
  refine ⟨by decide, by decide, hv, hd, hi, ?_, ?_⟩
  · rw [hd, hv]; norm_num
  · rw [hi, hv]; norm_num

/-- C2, amended: in both programs, for every flow record within the counter
ranges, the average-delay figure is 0 if `rxPackets` is 0 or the last reception
is not later than the first transmission, and otherwise
`(delaySum / rxPackets) * 1000` with the delay sum in seconds. -/
theorem avgDelay_formula (fs : FlowStats) (hrx : fs.rxPackets < u32) :
    (D2d.flowMetrics fs).avgDelayMs =
        (if fs.rxPackets = 0 ∨
            fs.timeLastRxPacket.GetSeconds ≤ fs.timeFirstTxPacket.GetSeconds then 0
         else (fs.delaySum.GetSeconds / (fs.rxPackets : ℚ)) * 1000) ∧
    (Iab.flowMetrics fs).avgDelayMs =
        (if fs.rxPackets = 0 ∨
            fs.timeLastRxPacket.GetSeconds ≤ fs.timeFirstTxPacket.GetSeconds then 0
         else (fs.delaySum.GetSeconds / (fs.rxPackets : ℚ)) * 1000) := by
  rw [Iab.avgDelay_eq_d2d fs, and_self]
  exact D2d.avgDelay_guarded fs hrx

/-- The amended delay formula at a flow with 3 received packets and 6 ms of
summed delay. -/
theorem avgDelay_formula_witness :
    Sample.flowDelivered.rxPackets < u32 ∧
    (D2d.flowMetrics Sample.flowDelivered).avgDelayMs = 2 ∧
    (Iab.flowMetrics Sample.flowDelivered).avgDelayMs = 2 := by
  have h := avgDelay_formula Sample.flowDelivered (by decide)
  refine ⟨by decide, ?_, ?_⟩
  · rw [h.1]; norm_num [Sample.flowDelivered, Time.GetSeconds]
  · rw [h.2]; norm_num [Sample.flowDelivered, Time.GetSeconds]

/-- C3: in both programs, for 32-bit counters with `rxPackets ≤ txPackets`, the
loss figure is 0 if `txPackets` is 0 and otherwise
`(txPackets - rxPackets) * 100 / txPackets`. -/
theorem plr_formula (fs : FlowStats) (htx : fs.txPackets < u32)
    (hle : fs.rxPackets ≤ fs.txPackets) :
    (D2d.flowMetrics fs).plr =
        (if fs.txPackets = 0 then 0
         else ((fs.txPackets : ℚ) - (fs.rxPackets : ℚ)) * 100 / (fs.txPackets : ℚ)) ∧
    (Iab.flowMetrics fs).plr =
        (if fs.txPackets = 0 then 0
         else ((fs.txPackets : ℚ) - (fs.rxPackets : ℚ)) * 100 / (fs.txPackets : ℚ)) := by
  rw [Iab.plr_eq_d2d fs, and_self]
  exact D2d.plr_of_le fs htx hle

/-- The loss formula at a flow that delivered 3 of 4 packets. -/
theorem plr_formula_witness :
    Sample.flowDelivered.txPackets < u32 ∧
    Sample.flowDelivered.rxPackets ≤ Sample.flowDelivered.txPackets ∧
    (D2d.flowMetrics Sample.flowDelivered).plr = 25 ∧
    (Iab.flowMetrics Sample.flowDelivered).plr = 25 := by
  have h := plr_formula Sample.flowDelivered (by decide) (by decide)
  refine ⟨by decide, by decide, ?_, ?_⟩
  · rw [h.1]; norm_num [Sample.flowDelivered]
  · rw [h.2]; norm_num [Sample.flowDelivered]

/-- C4 as stated fails: a record with two received packets, 2800 received bytes
and 2 ms of summed delay, whose last reception lies before its first
transmission, gets throughput 0 and average delay 0 from both programs although
`rxPackets > 0`; so does a record received after its transmission whose byte
count and delay sum are 0. -/
theorem zero_iff_no_rx_counterexample :
    (Sample.flowReversed.inRange ∧
      0 < Sample.flowReversed.rxPackets ∧
      (D2d.flowMetrics Sample.flowReversed).throughputMbps = 0 ∧
      (D2d.flowMetrics Sample.flowReversed).avgDelayMs = 0 ∧
      (Iab.flowMetrics Sample.flowReversed).throughputMbps = 0 ∧
      (Iab.flowMetrics Sample.flowReversed).avgDelayMs = 0) ∧
    (Sample.flowNoPayload.inRange ∧
      0 < Sample.flowNoPayload.rxPackets ∧
      Sample.flowNoPayload.timeFirstTxPacket.GetSeconds <
        Sample.flowNoPayload.timeLastRxPacket.GetSeconds ∧
      (D2d.flowMetrics Sample.flowNoPayload).throughputMbps = 0 ∧
      (D2d.flowMetrics Sample.flowNoPayload).avgDelayMs = 0 ∧
      (Iab.flowMetrics Sample.flowNoPayload).throughputMbps = 0 ∧
      (Iab.flowMetrics Sample.flowNoPayload).avgDelayMs = 0) := by
  have ht : (D2d.flowMetrics Sample.flowReversed).throughputMbps = 0 := by
    rw [D2d.throughput_eq]
    simp [Sample.flowReversed]
  have hd : (D2d.flowMetrics Sample.flowReversed).avgDelayMs = 0 := by
    rw [D2d.avgDelay_eq]
    simp [Sample.flowReversed]
  have ht2 : (D2d.flowMetrics Sample.flowNoPayload).throughputMbps = 0 := by
    rw [D2d.throughput_eq]
    simp [Sample.flowNoPayload]
  have hd2 : (D2d.flowMetrics Sample.flowNoPayload).avgDelayMs = 0 := by
    rw [D2d.avgDelay_eq]
    simp [Sample.flowNoPayload, Time.GetSeconds]
  refine ⟨⟨by decide, by decide, ht, hd, ?_, ?_⟩, ⟨by decide, by decide, ?_, ht2, hd2, ?_, ?_⟩⟩
  · rw [Iab.flowMetrics_eq_d2d _ (by decide)]
    exact ht
  · rw [Iab.flowMetrics_eq_d2d _ (by decide)]
    exact hd
  · norm_num [Sample.flowNoPayload, Time.GetSeconds]
  · rw [Iab.flowMetrics_eq_d2d _ (by decide)]
    exact ht2
  · rw [Iab.flowMetrics_eq_d2d _ (by decide)]
    exact hd2

/-- C4, amended: for every flow record of either program within the counter
ranges, the throughput figure is 0 exactly when `rxPackets` is 0, or the last
reception is not later than the first transmission, or `rxBytes` is 0; the
average-delay figure is 0 exactly when `rxPackets` is 0, or the last reception
is not later than the first transmission, or the delay sum is 0.  So both are 0
when `rxPackets` is 0. -/
theorem zero_iff_guard (fs : FlowStats) (hr : fs.inRange) :
    ((D2d.flowMetrics fs).throughputMbps = 0 ↔
      (fs.rxPackets = 0 ∨
        fs.timeLastRxPacket.GetSeconds ≤ fs.timeFirstTxPacket.GetSeconds ∨
        fs.rxBytes = 0)) ∧
    ((D2d.flowMetrics fs).avgDelayMs = 0 ↔
      (fs.rxPackets = 0 ∨
        fs.timeLastRxPacket.GetSeconds ≤ fs.timeFirstTxPacket.GetSeconds ∨
        fs.delaySum.GetSeconds = 0)) ∧
    ((Iab.flowMetrics fs).throughputMbps = 0 ↔
      (fs.rxPackets = 0 ∨
        fs.timeLastRxPacket.GetSeconds ≤ fs.timeFirstTxPacket.GetSeconds ∨
        fs.rxBytes = 0)) ∧
    ((Iab.flowMetrics fs).avgDelayMs = 0 ↔
      (fs.rxPackets = 0 ∨
        fs.timeLastRxPacket.GetSeconds ≤ fs.timeFirstTxPacket.GetSeconds ∨
        fs.delaySum.GetSeconds = 0)) := by
  rw [Iab.flowMetrics_eq_d2d fs hr]
  have hT : ((D2d.flowMetrics fs).throughputMbps = 0 ↔
      (fs.rxPackets = 0 ∨
        fs.timeLastRxPacket.GetSeconds ≤ fs.timeFirstTxPacket.GetSeconds ∨
        fs.rxBytes = 0)) := by
    rw [D2d.throughput_guarded fs hr.2.1]
    by_cases h : fs.rxPackets = 0 ∨
        fs.timeLastRxPacket.GetSeconds ≤ fs.timeFirstTxPacket.GetSeconds
    · rw [if_pos h]
      constructor
      · intro _
        rcases h with h | h
        · exact Or.inl h
        · exact Or.inr (Or.inl h)
      · intro _
        rfl
    · rw [if_neg h]
      have h1 : fs.rxPackets ≠ 0 := fun e => h (Or.inl e)
      have h2 : fs.timeFirstTxPacket.GetSeconds < fs.timeLastRxPacket.GetSeconds :=
        lt_of_not_le (fun e => h (Or.inr e))
      have hpos : (0 : ℚ) <
          (fs.timeLastRxPacket.GetSeconds - fs.timeFirstTxPacket.GetSeconds) * 1000000 := by
        have : (0 : ℚ) < fs.timeLastRxPacket.GetSeconds - fs.timeFirstTxPacket.GetSeconds :=
          sub_pos.2 h2
        positivity
      rw [div_eq_zero_iff]
      constructor
      · rintro (e | e)
        · right; right
          have : (fs.rxBytes : ℚ) = 0 := by linarith
          exact_mod_cast this
        · exact absurd e (ne_of_gt hpos)
      · rintro (e | e | e)
        · exact absurd e h1
        · exact absurd e (not_le_of_lt h2)
        · left
          rw [e]
          norm_num
  have hD : ((D2d.flowMetrics fs).avgDelayMs = 0 ↔
      (fs.rxPackets = 0 ∨
        fs.timeLastRxPacket.GetSeconds ≤ fs.timeFirstTxPacket.GetSeconds ∨
        fs.delaySum.GetSeconds = 0)) := by
    rw [D2d.avgDelay_guarded fs hr.2.1]
    by_cases h : fs.rxPackets = 0 ∨
        fs.timeLastRxPacket.GetSeconds ≤ fs.timeFirstTxPacket.GetSeconds
    · rw [if_pos h]
      constructor
      · intro _
        rcases h with h | h
        · exact Or.inl h
        · exact Or.inr (Or.inl h)
      · intro _
        rfl
    · rw [if_neg h]
      have h1 : fs.rxPackets ≠ 0 := fun e => h (Or.inl e)
      have h2 : fs.timeFirstTxPacket.GetSeconds < fs.timeLastRxPacket.GetSeconds :=
        lt_of_not_le (fun e => h (Or.inr e))
      have hq : (fs.rxPackets : ℚ) ≠ 0 := by exact_mod_cast h1
      constructor
      · intro e
        right; right
        have e1 : fs.delaySum.GetSeconds / (fs.rxPackets : ℚ) = 0 := by
          rcases mul_eq_zero.1 e with e | e
          · exact e
          · norm_num at e
        rcases div_eq_zero_iff.1 e1 with e | e
        · exact e
        · exact absurd e hq
      · rintro (e | e | e)
        · exact absurd e h1
        · exact absurd e (not_le_of_lt h2)
        · rw [e]
          norm_num
  exact ⟨hT, hD, hT, hD⟩

/-- The amended zero characterisation at a delivered flow: neither figure is 0. -/
theorem zero_iff_guard_witness :
    Sample.flowDelivered.inRange ∧
    (D2d.flowMetrics Sample.flowDelivered).throughputMbps ≠ 0 ∧
    (Iab.flowMetrics Sample.flowDelivered).avgDelayMs ≠ 0 := by
  have h := zero_iff_guard Sample.flowDelivered (by decide)
  refine ⟨by decide, ?_, ?_⟩
  · rw [Ne, h.1]
    norm_num [Sample.flowDelivered, Time.GetSeconds]
  · rw [Ne, h.2.2.2]
    norm_num [Sample.flowDelivered, Time.GetSeconds]

/-- C5: for every `txPackets` and every `rxPackets ≤ txPackets` (32-bit
counters), the loss figure of either program lies in `[0, 100]`; it is 0 when
`rxPackets = txPackets` and 100 when `rxPackets = 0` and `txPackets > 0`. -/
theorem plr_bounds (fs : FlowStats) (htx : fs.txPackets < u32)
    (hle : fs.rxPackets ≤ fs.txPackets) :
    (0 ≤ (D2d.flowMetrics fs).plr ∧ (D2d.flowMetrics fs).plr ≤ 100 ∧
      (fs.rxPackets = fs.txPackets → (D2d.flowMetrics fs).plr = 0) ∧
      (fs.rxPackets = 0 → 0 < fs.txPackets → (D2d.flowMetrics fs).plr = 100)) ∧
    (0 ≤ (Iab.flowMetrics fs).plr ∧ (Iab.flowMetrics fs).plr ≤ 100 ∧
      (fs.rxPackets = fs.txPackets → (Iab.flowMetrics fs).plr = 0) ∧
      (fs.rxPackets = 0 → 0 < fs.txPackets → (Iab.flowMetrics fs).plr = 100)) := by
  rw [Iab.plr_eq_d2d fs, and_self, D2d.plr_of_le fs htx hle]
  by_cases h0 : fs.txPackets = 0
  · rw [if_pos h0]
    refine ⟨le_refl _, by norm_num, fun _ => rfl, fun _ hp => ?_⟩
    omega
  · rw [if_neg h0]
    have htq : (0 : ℚ) < (fs.txPackets : ℚ) := by
      exact_mod_cast Nat.pos_of_ne_zero h0
    have hrq : (0 : ℚ) ≤ (fs.rxPackets : ℚ) := Nat.cast_nonneg _
    have hleq : (fs.rxPackets : ℚ) ≤ (fs.txPackets : ℚ) := by exact_mod_cast hle
    refine ⟨?_, ?_, ?_, ?_⟩
    · apply div_nonneg
      · nlinarith
      · exact le_of_lt htq
    · rw [div_le_iff₀ htq]
      nlinarith
    · intro e
      rw [e]
      simp
    · intro e _
      rw [e]
      field_simp

/-- The loss bounds at a flow that delivered 3 of 4 packets, the zero at a flow
that delivered its only packet, and the 100 at a flow that lost all 4. -/
theorem plr_bounds_witness :
    Sample.flowDelivered.txPackets < u32 ∧
    Sample.flowDelivered.rxPackets ≤ Sample.flowDelivered.txPackets ∧
    0 ≤ (D2d.flowMetrics Sample.flowDelivered).plr ∧
    (D2d.flowMetrics Sample.flowDelivered).plr ≤ 100 ∧
    0 ≤ (Iab.flowMetrics Sample.flowDelivered).plr ∧
    (Iab.flowMetrics Sample.flowDelivered).plr ≤ 100 ∧
    Sample.flowSameInstant.rxPackets = Sample.flowSameInstant.txPackets ∧
    (D2d.flowMetrics Sample.flowSameInstant).plr = 0 ∧
    (Iab.flowMetrics Sample.flowSameInstant).plr = 0 ∧
    Sample.flowAllLost.rxPackets = 0 ∧
    0 < Sample.flowAllLost.txPackets ∧
    (D2d.flowMetrics Sample.flowAllLost).plr = 100 ∧
    (Iab.flowMetrics Sample.flowAllLost).plr = 100 :=
  have h := plr_bounds Sample.flowDelivered (by decide) (by decide)
  have h0 := plr_bounds Sample.flowSameInstant (by decide) (by decide)
  have h1 := plr_bounds Sample.flowAllLost (by decide) (by decide)
  ⟨by decide, by decide, h.1.1, h.1.2.1, h.2.1, h.2.2.1,
    rfl, h0.1.2.2.1 rfl, h0.2.2.2.1 rfl,
    rfl, by decide, h1.1.2.2.2 rfl (by decide), h1.2.2.2.2 rfl (by decide)⟩

/-- C10: in both programs the loss numerator is the 32-bit unsigned difference,
so for `txPackets > 0` and `rxPackets > txPackets` the loss figure is
`((txPackets - rxPackets) mod 2^32) * 100 / txPackets`, strictly above 100. -/
theorem plr_wraps (fs : FlowStats) (hrx : fs.rxPackets < u32)
    (htx0 : 0 < fs.txPackets) (hlt : fs.txPackets < fs.rxPackets) :
    ((D2d.flowMetrics fs).plr =
        ((((fs.txPackets : Int) - (fs.rxPackets : Int)) % 4294967296 : Int) : ℚ) * 100 /
          (fs.txPackets : ℚ) ∧
      100 < (D2d.flowMetrics fs).plr) ∧
    ((Iab.flowMetrics fs).plr =
        ((((fs.txPackets : Int) - (fs.rxPackets : Int)) % 4294967296 : Int) : ℚ) * 100 /
          (fs.txPackets : ℚ) ∧
      100 < (Iab.flowMetrics fs).plr) := by
  rw [Iab.plr_eq_d2d fs, and_self, D2d.plr_of_lt fs hrx htx0 hlt]
  have hrx : fs.rxPackets < 4294967296 := hrx
  have hmod : ((fs.txPackets : Int) - (fs.rxPackets : Int)) % 4294967296 =
      (fs.txPackets : Int) + 4294967296 - (fs.rxPackets : Int) := by
    omega
  have htq : (0 : ℚ) < (fs.txPackets : ℚ) := by exact_mod_cast htx0
  have hrq : (fs.rxPackets : ℚ) < 4294967296 := by exact_mod_cast hrx
  constructor
  · rw [hmod]
    push_cast
    rfl
  · rw [lt_div_iff₀ htq]
    nlinarith

/-- The wrapped loss at a record with 2 sent and 3 received packets. -/
theorem plr_wraps_witness :
    Sample.flowOverReceived.rxPackets < u32 ∧
    0 < Sample.flowOverReceived.txPackets ∧
    Sample.flowOverReceived.txPackets < Sample.flowOverReceived.rxPackets ∧
    (D2d.flowMetrics Sample.flowOverReceived).plr = 214748364750 ∧
    (Iab.flowMetrics Sample.flowOverReceived).plr = 214748364750 := by
  have h := plr_wraps Sample.flowOverReceived (by decide) (by decide) (by decide)
  refine ⟨by decide, by decide, by decide, ?_, ?_⟩
  · rw [h.1.1]; norm_num [Sample.flowOverReceived]
  · rw [h.2.1]; norm_num [Sample.flowOverReceived]

/-! ## Set-up of the multi-hop chain -/

/-- The host route the routing loop adds at node `i`. -/
theorem Iab.routeLoop_append (ifaces : Nat → Ipv4Address) (hops : Nat) (dstAddr : Ipv4Address) :
    ∀ (n i : Nat) (tbl : List RouteEntry), hops - i = n →
      Iab.routeLoop ifaces hops dstAddr i tbl =
        tbl ++ (List.range' i n).map (fun j => (⟨j, dstAddr, ifaces (j + 1), 1⟩ : RouteEntry)) := by
  intro n
  induction n with
  | zero =>
    intro i tbl hn
    rw [Iab.routeLoop, if_neg (by omega)]
    simp
  | succ n ih =>
    intro i tbl hn
    rw [Iab.routeLoop, if_pos (by omega), ih (i + 1) _ (by omega), List.range'_succ]
    simp

/-- The routing loop started on an empty table leaves one entry per node below
`hops`, in node order. -/
theorem Iab.routeLoop_eq_map (ifaces : Nat → Ipv4Address) (hops : Nat) (dstAddr : Ipv4Address) :
    Iab.routeLoop ifaces hops dstAddr 0 [] =
      (List.range hops).map (fun j => (⟨j, dstAddr, ifaces (j + 1), 1⟩ : RouteEntry)) := by
  rw [Iab.routeLoop_append ifaces hops dstAddr hops 0 [] (by omega), List.range_eq_range']
  simp

/-- The position loop adds one position per index below `totalNodes`. -/
theorem Iab.placeLoop_length (totalNodes : Nat) :
    ∀ (n i : Nat) (acc : List Vector), totalNodes - i = n →
      (Iab.placeLoop totalNodes i acc).length = acc.length + n := by
  intro n
  induction n with
  | zero =>
    intro i acc hn
    rw [Iab.placeLoop, if_neg (by omega)]
    rfl
  | succ n ih =>
    intro i acc hn
    rw [Iab.placeLoop, if_pos (by omega), ih (i + 1) _ (by omega)]
    simp
    omega

/-- Entries of node `i` in the table built for a chain of `h` hops. -/
theorem Iab.filter_node (ifaces : Nat → Ipv4Address) (dstAddr : Ipv4Address) (i : Nat) :
    ∀ h : Nat,
      ((List.range h).map
          (fun j => (⟨j, dstAddr, ifaces (j + 1), 1⟩ : RouteEntry))).filter
          (fun e => e.node = i) =
        if i < h then [⟨i, dstAddr, ifaces (i + 1), 1⟩] else [] := by
  intro h
  induction h with
  | zero => simp
  | succ h ih =>
    rw [List.range_succ, List.map_append, List.filter_append, ih]
    by_cases h1 : i < h
    · have h2 : ¬ h = i := by omega
      simp [h1, h2, Nat.lt_succ_of_lt h1]
    · by_cases h2 : h = i
      · subst h2
        simp
      · have h3 : ¬ i < h + 1 := by omega
        simp [h1, h2, h3]

/-- Lookup of the destination at node `i` of a chain of `h` hops. -/
theorem Iab.nextHop_chain (ifaces : Nat → Ipv4Address) (dstAddr : Ipv4Address) (i : Nat) :
    ∀ h : Nat, i < h →
      Iab.nextHop ((List.range h).map
          (fun j => (⟨j, dstAddr, ifaces (j + 1), 1⟩ : RouteEntry))) i dstAddr =
        some (ifaces (i + 1)) := by
  intro h
  induction h with
  | zero => intro hi; omega
  | succ h ih =>
    intro hi
    unfold Iab.nextHop at *
    rw [List.range_succ, List.map_append, List.find?_append]
    by_cases h1 : i < h
    · have hfound := ih h1
      rw [Option.map_eq_some'] at hfound
      obtain ⟨e, he, hne⟩ := hfound
      rw [he]
      simpa using hne
    · have h2 : i = h := by omega
      subst h2
      have hn : List.find? (fun e => decide (e.node = i ∧ e.dest = dstAddr))
          ((List.range i).map
            (fun j => (⟨j, dstAddr, ifaces (j + 1), 1⟩ : RouteEntry))) = none := by
        rw [List.find?_eq_none]
        intro x hx
        rw [List.mem_map] at hx
        obtain ⟨j, hj, rfl⟩ := hx
        rw [List.mem_range] at hj
        simp
        omega
      rw [hn]
      simp

/-- With pairwise distinct addresses below `n`, the owner of the address of node
`m` is node `m`. -/
theorem Iab.ownerOf_self (ifaces : Nat → Ipv4Address) :
    ∀ n : Nat, (∀ i j, i < n → j < n → ifaces i = ifaces j → i = j) →
      ∀ m, m < n → Iab.ownerOf ifaces n (ifaces m) = some m := by
  intro n
  induction n with
  | zero => intro _ m hm; omega
  | succ n ih =>
    intro hinj m hm
    unfold Iab.ownerOf at *
    rw [List.range_succ, List.find?_append]
    by_cases h1 : m < n
    · rw [ih (fun i j hi hj e => hinj i j (by omega) (by omega) e) m h1]
      rfl
    · have h2 : m = n := by omega
      subst h2
      have hn : List.find? (fun j => decide (ifaces j = ifaces m)) (List.range m) = none := by
        rw [List.find?_eq_none]
        intro x hx
        rw [List.mem_range] at hx
        simp
        intro e
        have := hinj x m (by omega) (by omega) e
        omega
      rw [hn]
      simp

/-- Following next hops in a chain of `h` hops with pairwise distinct addresses
visits node `k` after `k` steps. -/
theorem Iab.walk_chain (ifaces : Nat → Ipv4Address) (h : Nat)
    (hinj : ∀ i j, i < h + 1 → j < h + 1 → ifaces i = ifaces j → i = j) :
    ∀ k : Nat, k ≤ h →
      Iab.walk ifaces (h + 1)
        ((List.range h).map
          (fun j => (⟨j, ifaces h, ifaces (j + 1), 1⟩ : RouteEntry))) (ifaces h) k = some k := by
  intro k
  induction k with
  | zero => intro _; rfl
  | succ k ih =>
    intro hk
    rw [Iab.walk, ih (by omega)]
    dsimp only
    rw [Iab.nextHop_chain ifaces (ifaces h) k h (by omega)]
    dsimp only
    exact Iab.ownerOf_self ifaces (h + 1) hinj (k + 1) (by omega)

/-! ## The two programs as a whole -/

/-- The multi-hop program on an empty statistics map: the loop body never runs. -/
theorem Iab.multihop_nil (hopsArg : Nat) (ifaces : Nat → Ipv4Address)
    (classifier : FlowId → FiveTuple) :
    Iab.main hopsArg ifaces [] classifier =
      { stdout := (Iab.checkHops hopsArg).2 ++ [Iab.Line.running (Iab.checkHops hopsArg).1]
        hops := (Iab.checkHops hopsArg).1
        totalNodes := addU32 (Iab.checkHops hopsArg).1 1
        positions := Iab.placeLoop (addU32 (Iab.checkHops hopsArg).1 1) 0 []
        routes := Iab.routeLoop ifaces (Iab.checkHops hopsArg).1
          (ifaces (Iab.checkHops hopsArg).1) 0 []
        destroyed := false
        exitCode := 0 } := rfl

/-- The multi-hop program on a non-empty statistics map: the first entry alone
decides what is printed. -/
theorem Iab.multihop_cons (hopsArg : Nat) (ifaces : Nat → Ipv4Address)
    (flow : FlowId × FlowStats) (rest : StatsMap) (classifier : FlowId → FiveTuple) :
    Iab.main hopsArg ifaces (flow :: rest) classifier =
      { stdout := (Iab.checkHops hopsArg).2 ++ [Iab.Line.running (Iab.checkHops hopsArg).1] ++
          (if (classifier flow.1).sourceAddress = ifaces 0 ∧
              (classifier flow.1).destinationAddress = ifaces (Iab.checkHops hopsArg).1 then
            Iab.report (Iab.checkHops hopsArg).1 (Iab.flowMetrics flow.2)
          else [])
        hops := (Iab.checkHops hopsArg).1
        totalNodes := addU32 (Iab.checkHops hopsArg).1 1
        positions := Iab.placeLoop (addU32 (Iab.checkHops hopsArg).1 1) 0 []
        routes := Iab.routeLoop ifaces (Iab.checkHops hopsArg).1
          (ifaces (Iab.checkHops hopsArg).1) 0 []
        destroyed := true
        exitCode := 0 } := by
  unfold Iab.main
  simp only [forEach, Iab.loopBody]
  split <;> simp

/-- The sidelink program on an empty statistics map: the loop body never runs. -/
theorem D2d.sidelink_nil (mode : String) (intervalUs : ℚ) (ifaces : Nat → Ipv4Address)
    (classifier : FlowId → FiveTuple) :
    D2d.main mode intervalUs ifaces [] classifier =
      { stdout := [D2d.Line.running mode]
        positions := D2d.positions mode
        routes := D2d.staticRoutes mode (ifaces 1) (ifaces 2)
        destroyed := false
        exitCode := 0 } := rfl

/-- The sidelink program on a non-empty statistics map: the first entry alone
decides what is printed. -/
theorem D2d.sidelink_cons (mode : String) (intervalUs : ℚ) (ifaces : Nat → Ipv4Address)
    (flow : FlowId × FlowStats) (rest : StatsMap) (classifier : FlowId → FiveTuple) :
    D2d.main mode intervalUs ifaces (flow :: rest) classifier =
      { stdout := [D2d.Line.running mode] ++
          (if (classifier flow.1).sourceAddress = ifaces 0 ∧
              (classifier flow.1).destinationAddress = ifaces 2 then
            D2d.report mode intervalUs (D2d.flowMetrics flow.2)
          else [])
        positions := D2d.positions mode
        routes := D2d.staticRoutes mode (ifaces 1) (ifaces 2)
        destroyed := true
        exitCode := 0 } := by
  unfold D2d.main
  simp only [forEach, D2d.loopBody]
  split <;> simp

/-- Set-up fields of a multi-hop run do not depend on the statistics map. -/
theorem Iab.multihop_setup (hopsArg : Nat) (ifaces : Nat → Ipv4Address)
    (stats : StatsMap) (classifier : FlowId → FiveTuple) :
    (Iab.main hopsArg ifaces stats classifier).hops = (Iab.checkHops hopsArg).1 ∧
    (Iab.main hopsArg ifaces stats classifier).totalNodes =
      addU32 (Iab.checkHops hopsArg).1 1 ∧
    (Iab.main hopsArg ifaces stats classifier).positions =
      Iab.placeLoop (addU32 (Iab.checkHops hopsArg).1 1) 0 [] ∧
    (Iab.main hopsArg ifaces stats classifier).routes =
      Iab.routeLoop ifaces (Iab.checkHops hopsArg).1 (ifaces (Iab.checkHops hopsArg).1) 0 [] ∧
    Iab.warnings (Iab.main hopsArg ifaces stats classifier).stdout = (Iab.checkHops hopsArg).2 := by
  have hw : Iab.warnings ((Iab.checkHops hopsArg).2 ++
      [Iab.Line.running (Iab.checkHops hopsArg).1]) = (Iab.checkHops hopsArg).2 := by
    unfold Iab.checkHops Iab.warnings
    split <;> simp
  cases stats with
  | nil =>
    rw [Iab.multihop_nil]
    exact ⟨rfl, rfl, rfl, rfl, hw⟩
  | cons flow rest =>
    rw [Iab.multihop_cons]
    refine ⟨rfl, rfl, rfl, rfl, ?_⟩
    dsimp only
    unfold Iab.warnings at *
    rw [List.filter_append, hw]
    split <;> simp [Iab.report]

/-- Set-up fields of a sidelink run do not depend on the statistics map. -/
theorem D2d.sidelink_setup (mode : String) (intervalUs : ℚ) (ifaces : Nat → Ipv4Address)
    (stats : StatsMap) (classifier : FlowId → FiveTuple) :
    (D2d.main mode intervalUs ifaces stats classifier).routes =
      D2d.staticRoutes mode (ifaces 1) (ifaces 2) ∧
    (D2d.main mode intervalUs ifaces stats classifier).positions = D2d.positions mode ∧
    (D2d.main mode intervalUs ifaces stats classifier).exitCode = 0 ∧
    (D2d.main mode intervalUs ifaces stats classifier).stdout.head? =
      some (D2d.Line.running mode) := by
  cases stats with
  | nil =>
    rw [D2d.sidelink_nil]
    exact ⟨rfl, rfl, rfl, rfl⟩
  | cons flow rest =>
    rw [D2d.sidelink_cons]
    exact ⟨rfl, rfl, rfl, rfl⟩

/-! ## Command-line handling and static routes -/

/-- C6: in the multi-hop program, for every value given as `--hops`, the hop
count in effect is the given value when it lies in `[1, 3]` and 1 otherwise, the
warning is printed exactly in the otherwise case, and `hops + 1` nodes are
created and placed; `hops = 5` gives 1 hop and 2 nodes, and the node count is
always 2, 3 or 4. -/
theorem hops_clamped (hopsArg : Nat) (ifaces : Nat → Ipv4Address)
    (stats : StatsMap) (classifier : FlowId → FiveTuple) :
    (Iab.main hopsArg ifaces stats classifier).hops =
      (if 1 ≤ hopsArg ∧ hopsArg ≤ 3 then hopsArg else 1) ∧
    Iab.warnings (Iab.main hopsArg ifaces stats classifier).stdout =
      (if 1 ≤ hopsArg ∧ hopsArg ≤ 3 then [] else [Iab.Line.invalidHops hopsArg]) ∧
    (Iab.main hopsArg ifaces stats classifier).totalNodes =
      (Iab.main hopsArg ifaces stats classifier).hops + 1 ∧
    (Iab.main hopsArg ifaces stats classifier).positions.length =
      (Iab.main hopsArg ifaces stats classifier).hops + 1 ∧
    ((Iab.main hopsArg ifaces stats classifier).totalNodes = 2 ∨
      (Iab.main hopsArg ifaces stats classifier).totalNodes = 3 ∨
      (Iab.main hopsArg ifaces stats classifier).totalNodes = 4) ∧
    (Iab.main 5 ifaces stats classifier).hops = 1 ∧
    (Iab.main 5 ifaces stats classifier).totalNodes = 2 ∧
    Iab.warnings (Iab.main 5 ifaces stats classifier).stdout = [Iab.Line.invalidHops 5] := by
  obtain ⟨hh, hn, hp, _, hw⟩ := Iab.multihop_setup hopsArg ifaces stats classifier
  obtain ⟨hh5, hn5, _, _, hw5⟩ := Iab.multihop_setup 5 ifaces stats classifier
  have hlen : (Iab.main hopsArg ifaces stats classifier).positions.length =
      addU32 (Iab.checkHops hopsArg).1 1 := by
    rw [hp, Iab.placeLoop_length _ _ 0 [] rfl]
    simp
  rw [hlen, hh, hn, hw, hh5, hn5, hw5]
  by_cases h : 1 ≤ hopsArg ∧ hopsArg ≤ 3
  · have hc : Iab.checkHops hopsArg = (hopsArg, []) := by
      unfold Iab.checkHops
      rw [if_neg (by omega)]
    rw [hc, if_pos h, if_pos h]
    have : hopsArg = 1 ∨ hopsArg = 2 ∨ hopsArg = 3 := by omega
    rcases this with e | e | e <;> subst e <;> decide
  · have hc : Iab.checkHops hopsArg = (1, [Iab.Line.invalidHops hopsArg]) := by
      unfold Iab.checkHops
      rw [if_pos (by omega)]
    rw [hc, if_neg h, if_neg h]
    refine ⟨rfl, rfl, ?_, ?_, ?_, ?_, ?_, ?_⟩ <;> simp [addU32, u32, Iab.checkHops]

/-- C7: in the multi-hop program, for every hop count `h` in `[1, 3]`, the
routing loop installs exactly `h` entries: node `i < h` gets exactly one entry,
to the address of node `h` through the address of node `i + 1`, and node `h` and
beyond get none; with pairwise distinct node addresses, following next hops from
node 0 is at node `k` after `k` steps for every `k ≤ h`, so it reaches node `h`
after exactly `h` steps. -/
theorem chain_routes (h : Nat) (h1 : 1 ≤ h) (h3 : h ≤ 3) (ifaces : Nat → Ipv4Address)
    (stats : StatsMap) (classifier : FlowId → FiveTuple) :
    (Iab.main h ifaces stats classifier).routes.length = h ∧
    (∀ i, i < h →
      (Iab.main h ifaces stats classifier).routes.filter (fun e => e.node = i) =
        [⟨i, ifaces h, ifaces (i + 1), 1⟩]) ∧
    (∀ i, h ≤ i →
      (Iab.main h ifaces stats classifier).routes.filter (fun e => e.node = i) = []) ∧
    ((∀ i j, i ≤ h → j ≤ h → ifaces i = ifaces j → i = j) →
      ∀ k, k ≤ h →
        Iab.walk ifaces (Iab.main h ifaces stats classifier).totalNodes
          (Iab.main h ifaces stats classifier).routes (ifaces h) k = some k) := by
  obtain ⟨_, hn, _, hroutes, _⟩ := Iab.multihop_setup h ifaces stats classifier
  have hc : Iab.checkHops h = (h, []) := by
    unfold Iab.checkHops
    rw [if_neg (by omega)]
  have hnodes : addU32 h 1 = h + 1 := by
    unfold addU32 u32
    omega
  rw [hroutes, hn, hc]
  dsimp only
  rw [Iab.routeLoop_eq_map, hnodes]
  refine ⟨by simp, ?_, ?_, ?_⟩
  · intro i hi
    rw [Iab.filter_node, if_pos hi]
  · intro i hi
    rw [Iab.filter_node, if_neg (by omega)]
  · intro hinj k hk
    exact Iab.walk_chain ifaces h
      (fun i j hi hj e => hinj i j (by omega) (by omega) e) k hk

/-- The chain of 3 hops over the addresses 10.1.0.1 to 10.1.0.4: three entries,
and the walk from node 0 is at node 3 after 3 steps and not before. -/
theorem chain_routes_witness :
    1 ≤ 3 ∧ 3 ≤ 3 ∧
    (∀ i j, i ≤ 3 → j ≤ 3 → Sample.chainAddr i = Sample.chainAddr j → i = j) ∧
    (Iab.main 3 Sample.chainAddr [] Sample.allMatch).routes.length = 3 ∧
    (Iab.main 3 Sample.chainAddr [] Sample.allMatch).routes.filter (fun e => e.node = 2) =
      [⟨2, Sample.chainAddr 3, Sample.chainAddr 3, 1⟩] ∧
    (Iab.main 3 Sample.chainAddr [] Sample.allMatch).routes.filter (fun e => e.node = 3) = [] ∧
    Iab.walk Sample.chainAddr (Iab.main 3 Sample.chainAddr [] Sample.allMatch).totalNodes
      (Iab.main 3 Sample.chainAddr [] Sample.allMatch).routes (Sample.chainAddr 3) 2 = some 2 ∧
    Iab.walk Sample.chainAddr (Iab.main 3 Sample.chainAddr [] Sample.allMatch).totalNodes
      (Iab.main 3 Sample.chainAddr [] Sample.allMatch).routes (Sample.chainAddr 3) 3 = some 3 := by
  have hinj : ∀ i j, i ≤ 3 → j ≤ 3 → Sample.chainAddr i = Sample.chainAddr j → i = j := by
    intro i j _ _ e
    have e1 : 167837697 + i = 167837697 + j := e
    omega
  have h := chain_routes 3 (by decide) (by decide) Sample.chainAddr [] Sample.allMatch
  exact ⟨by decide, by decide, hinj, h.1, h.2.1 2 (by decide), h.2.2.1 3 (le_refl 3),
    h.2.2.2 hinj 2 (by decide), h.2.2.2 hinj 3 (le_refl 3)⟩

/-- C8: the sidelink program takes every mode string as it is (exit code 0, the
mode echoed in the first line), and static routes exist only for the exact
string "relay": then exactly two entries (UE1 to UE2 through the relay; relay to
UE2 through UE2), and for every other string, "direct" included, none. -/
theorem relay_routes_only (mode : String) (intervalUs : ℚ) (ifaces : Nat → Ipv4Address)
    (stats : StatsMap) (classifier : FlowId → FiveTuple) :
    (D2d.main mode intervalUs ifaces stats classifier).routes =
      (if mode = "relay" then
        [⟨0, ifaces 2, ifaces 1, 1⟩, ⟨1, ifaces 2, ifaces 2, 1⟩]
       else []) ∧
    (D2d.main mode intervalUs ifaces stats classifier).exitCode = 0 ∧
    (D2d.main mode intervalUs ifaces stats classifier).stdout.head? =
      some (D2d.Line.running mode) ∧
    (D2d.main "direct" intervalUs ifaces stats classifier).routes = [] ∧
    (D2d.main "Relay" intervalUs ifaces stats classifier).routes = [] ∧
    (D2d.main "" intervalUs ifaces stats classifier).routes = [] := by
  obtain ⟨hr, _, he, hs⟩ := D2d.sidelink_setup mode intervalUs ifaces stats classifier
  refine ⟨?_, he, hs, ?_, ?_, ?_⟩
  · rw [hr]
    rfl
  · rw [(D2d.sidelink_setup "direct" intervalUs ifaces stats classifier).1]
    unfold D2d.staticRoutes
    rw [if_neg (by decide)]
  · rw [(D2d.sidelink_setup "Relay" intervalUs ifaces stats classifier).1]
    unfold D2d.staticRoutes
    rw [if_neg (by decide)]
  · rw [(D2d.sidelink_setup "" intervalUs ifaces stats classifier).1]
    unfold D2d.staticRoutes
    rw [if_neg (by decide)]

/-! ## The result loop -/

/-- In a map listed in increasing key order, a property of the key holds at an
entry of smallest key exactly when it holds at the first entry. -/
theorem Ns3.smallest_entry_iff (flow : FlowId × FlowStats) (rest : StatsMap)
    (hord : StatsMap.ordered (flow :: rest)) (P : FlowId → Prop) :
    (∃ e ∈ flow :: rest, (∀ e2 ∈ flow :: rest, e.1 ≤ e2.1) ∧ P e.1) ↔ P flow.1 := by
  unfold StatsMap.ordered at hord
  rw [List.pairwise_cons] at hord
  constructor
  · rintro ⟨e, he, hmin, hp⟩
    rcases List.mem_cons.1 he with h | h
    · rw [← h]
      exact hp
    · have h1 : flow.1 < e.1 := hord.1 e h
      have h2 : e.1 ≤ flow.1 := hmin flow (List.mem_cons_self _ _)
      exact absurd h1 (not_lt_of_le h2)
  · intro hp
    refine ⟨flow, List.mem_cons_self _ _, ?_, hp⟩
    intro e2 he2
    rcases List.mem_cons.1 he2 with h | h
    · rw [h]
    · exact le_of_lt (hord.1 e2 h)

/-- Machine-readable lines of a sidelink run. -/
theorem D2d.sidelink_csvLines (mode : String) (intervalUs : ℚ) (ifaces : Nat → Ipv4Address)
    (flow : FlowId × FlowStats) (rest : StatsMap) (classifier : FlowId → FiveTuple) :
    D2d.csvLines (D2d.main mode intervalUs ifaces (flow :: rest) classifier).stdout =
      if (classifier flow.1).sourceAddress = ifaces 0 ∧
          (classifier flow.1).destinationAddress = ifaces 2 then
        [D2d.Line.csv mode intervalUs (D2d.flowMetrics flow.2).throughputMbps
          (D2d.flowMetrics flow.2).avgDelayMs (D2d.flowMetrics flow.2).plr]
      else [] := by
  rw [D2d.sidelink_cons]
  unfold D2d.csvLines
  split <;> simp [D2d.report]

/-- Machine-readable lines of a multi-hop run. -/
theorem Iab.multihop_csvLines (hopsArg : Nat) (ifaces : Nat → Ipv4Address)
    (flow : FlowId × FlowStats) (rest : StatsMap) (classifier : FlowId → FiveTuple) :
    Iab.csvLines (Iab.main hopsArg ifaces (flow :: rest) classifier).stdout =
      if (classifier flow.1).sourceAddress = ifaces 0 ∧
          (classifier flow.1).destinationAddress = ifaces (Iab.checkHops hopsArg).1 then
        [Iab.Line.csv (Iab.checkHops hopsArg).1 (Iab.flowMetrics flow.2).throughputMbps
          (Iab.flowMetrics flow.2).avgDelayMs (Iab.flowMetrics flow.2).plr]
      else [] := by
  rw [Iab.multihop_cons]
  unfold Iab.csvLines
  have hc : List.filter (fun l => match l with
      | Iab.Line.csv _ _ _ _ => true
      | _ => false) (Iab.checkHops hopsArg).2 = [] := by
    unfold Iab.checkHops
    split <;> simp
  dsimp only
  rw [List.filter_append, List.filter_append, hc]
  split <;> simp [Iab.report]

/-- C9: in both programs the result loop leaves `main` at the end of its first
pass, so for every statistics map (listed in increasing flow id) only the entry
with the smallest flow id is looked at: the run equals the run on the first
entry alone, the simulator is destroyed exactly when the map is non-empty, a CSV
line is printed if and only if the map has an entry of smallest id whose source
and destination are those of the scenario, that line carries the figures of
that entry, and there is never more than one CSV line. -/
theorem first_entry_only (mode : String) (intervalUs : ℚ) (hopsArg : Nat)
    (ifaces : Nat → Ipv4Address) (stats : StatsMap) (classifier : FlowId → FiveTuple)
    (hord : stats.ordered) :
    (D2d.main mode intervalUs ifaces stats classifier =
        D2d.main mode intervalUs ifaces (stats.take 1) classifier ∧
      ((D2d.main mode intervalUs ifaces stats classifier).destroyed = true ↔ stats ≠ []) ∧
      (D2d.main mode intervalUs ifaces stats classifier).exitCode = 0 ∧
      (D2d.csvLines (D2d.main mode intervalUs ifaces stats classifier).stdout).length ≤ 1 ∧
      (D2d.csvLines (D2d.main mode intervalUs ifaces stats classifier).stdout ≠ [] ↔
        ∃ e ∈ stats, (∀ e2 ∈ stats, e.1 ≤ e2.1) ∧
          ((classifier e.1).sourceAddress = ifaces 0 ∧
            (classifier e.1).destinationAddress = ifaces 2)) ∧
      (∀ l ∈ D2d.csvLines (D2d.main mode intervalUs ifaces stats classifier).stdout,
        ∃ e ∈ stats.head?, l = D2d.Line.csv mode intervalUs
          (D2d.flowMetrics e.2).throughputMbps (D2d.flowMetrics e.2).avgDelayMs
          (D2d.flowMetrics e.2).plr)) ∧
    (Iab.main hopsArg ifaces stats classifier =
        Iab.main hopsArg ifaces (stats.take 1) classifier ∧
      ((Iab.main hopsArg ifaces stats classifier).destroyed = true ↔ stats ≠ []) ∧
      (Iab.main hopsArg ifaces stats classifier).exitCode = 0 ∧
      (Iab.csvLines (Iab.main hopsArg ifaces stats classifier).stdout).length ≤ 1 ∧
      (Iab.csvLines (Iab.main hopsArg ifaces stats classifier).stdout ≠ [] ↔
        ∃ e ∈ stats, (∀ e2 ∈ stats, e.1 ≤ e2.1) ∧
          ((classifier e.1).sourceAddress = ifaces 0 ∧
            (classifier e.1).destinationAddress =
              ifaces (Iab.main hopsArg ifaces stats classifier).hops)) ∧
      (∀ l ∈ Iab.csvLines (Iab.main hopsArg ifaces stats classifier).stdout,
        ∃ e ∈ stats.head?, l = Iab.Line.csv (Iab.main hopsArg ifaces stats classifier).hops
          (Iab.flowMetrics e.2).throughputMbps (Iab.flowMetrics e.2).avgDelayMs
          (Iab.flowMetrics e.2).plr)) := by
  cases stats with
  | nil =>
    constructor
    · refine ⟨rfl, ?_, rfl, ?_, ?_, ?_⟩
      · rw [D2d.sidelink_nil]; simp
      · rw [D2d.sidelink_nil]; simp [D2d.csvLines]
      · rw [D2d.sidelink_nil]; simp [D2d.csvLines]
      · rw [D2d.sidelink_nil]; simp [D2d.csvLines]
    · have hc : Iab.csvLines (Iab.main hopsArg ifaces [] classifier).stdout = [] := by
        rw [Iab.multihop_nil]
        unfold Iab.csvLines Iab.checkHops
        split <;> simp
      refine ⟨rfl, ?_, rfl, ?_, ?_, ?_⟩
      · rw [Iab.multihop_nil]; simp
      · rw [hc]; simp
      · rw [hc]; simp
      · rw [hc]; simp
  | cons flow rest =>
    constructor
    · rw [Ns3.smallest_entry_iff flow rest hord
        (fun id => (classifier id).sourceAddress = ifaces 0 ∧
          (classifier id).destinationAddress = ifaces 2),
        D2d.sidelink_csvLines]
      refine ⟨?_, ?_, ?_, ?_, ?_, ?_⟩
      · rw [List.take_succ_cons, List.take_zero, D2d.sidelink_cons, D2d.sidelink_cons]
      · rw [D2d.sidelink_cons]; simp
      · rw [D2d.sidelink_cons]
      · split <;> simp
      · split <;> simp [*]
      · split <;> simp
    · have hh : (Iab.main hopsArg ifaces (flow :: rest) classifier).hops =
          (Iab.checkHops hopsArg).1 := by
        rw [Iab.multihop_cons]
      rw [hh, Ns3.smallest_entry_iff flow rest hord
        (fun id => (classifier id).sourceAddress = ifaces 0 ∧
          (classifier id).destinationAddress = ifaces (Iab.checkHops hopsArg).1),
        Iab.multihop_csvLines]
      refine ⟨?_, ?_, ?_, ?_, ?_, ?_⟩
      · rw [List.take_succ_cons, List.take_zero, Iab.multihop_cons, Iab.multihop_cons]
      · rw [Iab.multihop_cons]; simp
      · rw [Iab.multihop_cons]
      · split <;> simp
      · split <;> simp [*]
      · split <;> simp

/-- A map whose second flow alone matches the scenario addresses: each program
behaves as on the first flow alone and prints no CSV line. -/
theorem first_entry_only_witness :
    Sample.twoFlows.ordered ∧
    (Sample.laterMatch 2).sourceAddress = Sample.chainAddr 0 ∧
    (Sample.laterMatch 2).destinationAddress = Sample.chainAddr 2 ∧
    D2d.main "relay" 100 Sample.chainAddr Sample.twoFlows Sample.laterMatch =
      D2d.main "relay" 100 Sample.chainAddr [(1, Sample.flowDelivered)] Sample.laterMatch ∧
    Iab.main 2 Sample.chainAddr Sample.twoFlows Sample.laterMatch =
      Iab.main 2 Sample.chainAddr [(1, Sample.flowDelivered)] Sample.laterMatch ∧
    D2d.csvLines
      (D2d.main "relay" 100 Sample.chainAddr Sample.twoFlows Sample.laterMatch).stdout = [] ∧
    Iab.csvLines (Iab.main 2 Sample.chainAddr Sample.twoFlows Sample.laterMatch).stdout = [] := by
  have hord : Sample.twoFlows.ordered := by
    unfold Sample.twoFlows StatsMap.ordered
    simp
  have h := first_entry_only "relay" 100 2 Sample.chainAddr
    Sample.twoFlows Sample.laterMatch hord
  refine ⟨hord, rfl, rfl, h.1.1, h.2.1, ?_, ?_⟩
  · unfold Sample.twoFlows
    rw [D2d.sidelink_csvLines]
    simp [Sample.laterMatch, Sample.chainAddr]
  · unfold Sample.twoFlows
    rw [Iab.multihop_csvLines]
    simp [Sample.laterMatch, Sample.chainAddr, Iab.checkHops]
